import Mathlib

/-!
Verification development for the `whatwg-node` body abstraction
(`packages/node-fetch/src/Body.ts`): the `PonyfillBody` class, its
`processBodyInit` source classifier, the memoized lazy stream factory,
the materialization API (`text`, `json`, `arrayBuffer`, `buffer`, `blob`,
`formData`) and the busboy-driven multipart form decoder.

Modelling conventions:
- bytes are `List Nat` (each entry a byte value);
- JS strings are Lean `String`; UTF-8 encoding/decoding is modelled
  explicitly (`utf8Encode`, `utf8DecodeLossy` — the latter follows the
  WHATWG lossy decoder used by `buffer.toString` with U+FFFD replacement);
- promise results are `Except`; a thrown error is `Except.error`;
- the mutable fields of `PonyfillBody` (`_generatedBody`, `bodyUsed`) are
  explicit state (`BodyState`) threaded through each operation; the number
  of invocations of the stored `_bodyFactory` is instrumented in the state
  (`factoryCalls`), and stream instances are identified by numeric tags so
  that "same stream instance" is expressible.
-/

namespace WhatwgBody

/-- Byte sequences (contents of Buffers, Uint8Arrays, ArrayBuffers, chunks). -/
abbrev Bytes := List Nat

/-- UTF-8 encoding of one code point (models Node UTF-8 encoding of a char). -/
def utf8EncodeChar (c : Char) : List Nat :=
  let n := c.toNat
  if n < 128 then [n]
  else if n < 2048 then [192 + n / 64, 128 + n % 64]
  else if n < 65536 then [224 + n / 4096, 128 + (n / 64) % 64, 128 + n % 64]
  else [240 + n / 262144, 128 + (n / 4096) % 64, 128 + (n / 64) % 64, 128 + n % 64]

/-- UTF-8 encoding of a string (models `Buffer.from(string)`). -/
def utf8Encode (s : String) : Bytes :=
  s.data.flatMap utf8EncodeChar

/-- Byte length of a string in UTF-8 (busboy limits are byte-based). -/
def utf8Len (s : String) : Nat :=
  (utf8Encode s).length

/-- Unicode replacement character U+FFFD. -/
def uReplacement : Char := Char.ofNat 65533

/-- Whether a byte is a UTF-8 continuation byte (0x80..0xBF). -/
def contByte (b : Nat) : Bool := 128 ≤ b && b < 192

/-- Fuel-indexed WHATWG lossy UTF-8 decoding (invalid sequences become U+FFFD),
as performed by Node `buffer.toString` with the utf-8 encoding. -/
def utf8DecodeAux : Nat → List Nat → List Char
  | 0, _ => []
  | _ + 1, [] => []
  | fuel + 1, b :: rest =>
    if b < 128 then Char.ofNat b :: utf8DecodeAux fuel rest
    else if b < 194 then uReplacement :: utf8DecodeAux fuel rest
    else if b < 224 then
      match rest with
      | b1 :: rest1 =>
        if contByte b1 then
          Char.ofNat ((b - 192) * 64 + (b1 - 128)) :: utf8DecodeAux fuel rest1
        else uReplacement :: utf8DecodeAux fuel rest
      | [] => [uReplacement]
    else if b < 240 then
      match rest with
      | b1 :: b2 :: rest2 =>
        if contByte b1 && contByte b2 && !(b == 224 && b1 < 160) && !(b == 237 && b1 ≥ 160) then
          Char.ofNat ((b - 224) * 4096 + (b1 - 128) * 64 + (b2 - 128)) :: utf8DecodeAux fuel rest2
        else uReplacement :: utf8DecodeAux fuel rest
      | _ => [uReplacement]
    else if b < 245 then
      match rest with
      | b1 :: b2 :: b3 :: rest3 =>
        if contByte b1 && contByte b2 && contByte b3 &&
            !(b == 240 && b1 < 144) && !(b == 244 && b1 ≥ 144) then
          Char.ofNat ((b - 240) * 262144 + (b1 - 128) * 4096 + (b2 - 128) * 64 + (b3 - 128))
            :: utf8DecodeAux fuel rest3
        else uReplacement :: utf8DecodeAux fuel rest
      | _ => [uReplacement]
    else uReplacement :: utf8DecodeAux fuel rest

/-- Lossy UTF-8 decoding of a byte sequence to a string
(models `buffer.toString` with utf-8). -/
def utf8DecodeLossy (bs : Bytes) : String :=
  ⟨utf8DecodeAux (bs.length + 1) bs⟩

/-- Longest prefix of a char list whose UTF-8 byte length fits a budget
(models busboy truncating a field name/value at a byte limit). -/
def takeUtf8Bytes : Nat → List Char → List Char
  | _, [] => []
  | budget, c :: cs =>
    let n := (utf8EncodeChar c).length
    if n ≤ budget then c :: takeUtf8Bytes (budget - n) cs else []

/-- Truncate a string to at most `limit` UTF-8 bytes. -/
def truncateUtf8 (s : String) (limit : Nat) : String :=
  ⟨takeUtf8Bytes limit s.data⟩

/-- Uppercase hex digit for a value below 16. -/
def hexDigitChar (n : Nat) : Char :=
  if n < 10 then Char.ofNat (48 + n) else Char.ofNat (55 + n)

/-- Characters kept verbatim by application/x-www-form-urlencoded serialization. -/
def isUrlSafeChar (c : Char) : Bool :=
  c.isAlphanum || c == '*' || c == '-' || c == '.' || c == '_'

/-- Percent-encode one byte. -/
def percentByte (b : Nat) : List Char :=
  ['%', hexDigitChar (b / 16), hexDigitChar (b % 16)]

/-- Serialize one component using the application/x-www-form-urlencoded rules. -/
def urlencodeString (s : String) : String :=
  ⟨s.data.flatMap fun c =>
    if isUrlSafeChar c then [c]
    else if c == ' ' then ['+']
    else (utf8EncodeChar c).flatMap percentByte⟩

/-- Canonical serialization of a URL-encoded parameter set
(models `URLSearchParams.prototype.toString`, order preserved). -/
def serializeUrlEncoded (ps : List (String × String)) : String :=
  String.intercalate "&" (ps.map fun p => urlencodeString p.1 ++ "=" ++ urlencodeString p.2)

/-- Parsed JSON value, the result type of the modelled `JSON.parse`. Numbers
keep their source lexeme (no floating-point semantics are needed here). -/
inductive Json where
  | null
  | tt
  | ff
  | num (lexeme : String)
  | str (s : String)
  | arr (elems : List Json)
  | obj (fields : List (String × Json))

/-- Opening brace character, written by code point to keep it out of literals. -/
def openBraceChar : Char := Char.ofNat 123

/-- Closing brace character. -/
def closeBraceChar : Char := Char.ofNat 125

/-- Double-quote character. -/
def quoteChar : Char := Char.ofNat 34

/-- Backslash character. -/
def backslashChar : Char := Char.ofNat 92

/-- Skip JSON whitespace. -/
def jsonSkipWs : List Char → List Char
  | c :: cs =>
    if c == ' ' || c == Char.ofNat 9 || c == Char.ofNat 10 || c == Char.ofNat 13 then
      jsonSkipWs cs
    else c :: cs
  | [] => []

/-- Whether a char is a decimal digit. -/
def isJsonDigit (c : Char) : Bool := 48 ≤ c.toNat && c.toNat ≤ 57

/-- Take a maximal run of decimal digits. -/
def jsonTakeDigits : List Char → List Char × List Char
  | c :: cs =>
    if isJsonDigit c then
      let (ds, r) := jsonTakeDigits cs
      (c :: ds, r)
    else ([], c :: cs)
  | [] => ([], [])

/-- Hex digit value of a char, if any. -/
def jsonHexVal (c : Char) : Option Nat :=
  let n := c.toNat
  if 48 ≤ n && n ≤ 57 then some (n - 48)
  else if 65 ≤ n && n ≤ 70 then some (n - 55)
  else if 97 ≤ n && n ≤ 102 then some (n - 87)
  else none

/-- Decode the body of a JSON string literal after its opening quote; returns
the decoded chars and the input after its closing quote. -/
def jsonStringChars : Nat → List Char → Except String (List Char × List Char)
  | 0, _ => .error "Unexpected end of JSON input"
  | _ + 1, [] => .error "Unterminated string in JSON"
  | fuel + 1, c :: cs =>
    if c == quoteChar then .ok ([], cs)
    else if c == backslashChar then
      match cs with
      | [] => .error "Unterminated string in JSON"
      | e :: cs2 =>
        if e == quoteChar || e == backslashChar || e == '/' then
          match jsonStringChars fuel cs2 with
          | .ok (out, r) => .ok (e :: out, r)
          | .error m => .error m
        else if e == 'b' || e == 'f' || e == 'n' || e == 'r' || e == 't' then
          let decoded :=
            if e == 'b' then Char.ofNat 8
            else if e == 'f' then Char.ofNat 12
            else if e == 'n' then Char.ofNat 10
            else if e == 'r' then Char.ofNat 13
            else Char.ofNat 9
          match jsonStringChars fuel cs2 with
          | .ok (out, r) => .ok (decoded :: out, r)
          | .error m => .error m
        else if e == 'u' then
          match cs2 with
          | h1 :: h2 :: h3 :: h4 :: cs3 =>
            match jsonHexVal h1, jsonHexVal h2, jsonHexVal h3, jsonHexVal h4 with
            | some v1, some v2, some v3, some v4 =>
              match jsonStringChars fuel cs3 with
              | .ok (out, r) => .ok (Char.ofNat (v1 * 4096 + v2 * 256 + v3 * 16 + v4) :: out, r)
              | .error m => .error m
            | _, _, _, _ => .error "Bad Unicode escape in JSON"
          | _ => .error "Bad Unicode escape in JSON"
        else .error "Bad escape in JSON"
    else
      match jsonStringChars fuel cs with
      | .ok (out, r) => .ok (c :: out, r)
      | .error m => .error m

/-- Lex a JSON number starting at the given input; returns its lexeme. -/
def jsonNumberLexeme (input : List Char) : Except String (List Char × List Char) :=
  let (neg, r1) :=
    match input with
    | c :: cs => if c == '-' then ([c], cs) else (([] : List Char), input)
    | [] => ([], [])
  let (ip, r2) := jsonTakeDigits r1
  if ip.isEmpty then .error "Unexpected token in JSON"
  else
    let (fp, r3) :=
      match r2 with
      | c :: cs =>
        if c == '.' then
          let (ds, r) := jsonTakeDigits cs
          (c :: ds, r)
        else (([] : List Char), r2)
      | [] => ([], [])
    if fp = ['.'] then .error "Unexpected token in JSON"
    else
      let (ep, r4) :=
        match r3 with
        | c :: cs =>
          if c == 'e' || c == 'E' then
            match cs with
            | s :: cs2 =>
              if s == '+' || s == '-' then
                let (ds, r) := jsonTakeDigits cs2
                (c :: s :: ds, r)
              else
                let (ds, r) := jsonTakeDigits cs
                (c :: ds, r)
            | [] => ([c], [])
          else (([] : List Char), r3)
        | [] => ([], [])
      if ep.length == 1 || (ep.length == 2 && (ep.getD 1 ' ' == '+' || ep.getD 1 ' ' == '-')) then
        .error "Unexpected token in JSON"
      else .ok (neg ++ ip ++ fp ++ ep, r4)

mutual

/-- Modelled from the spec: js `JSON.parse` (§7 `MalformedJson`), a recursive
descent over the JSON grammar; a parse failure is a SyntaxError-class
`Except.error`. -/
def parseJsonValue : Nat → List Char → Except String (Json × List Char)
  | 0, _ => .error "Unexpected end of JSON input"
  | fuel + 1, input =>
    match jsonSkipWs input with
    | [] => .error "Unexpected end of JSON input"
    | c :: cs =>
      if c == quoteChar then
        match jsonStringChars (fuel + 1) cs with
        | .ok (out, r) => .ok (.str ⟨out⟩, r)
        | .error m => .error m
      else if c == openBraceChar then
        match jsonSkipWs cs with
        | d :: ds =>
          if d == closeBraceChar then .ok (.obj [], ds)
          else parseJsonObjectItems fuel (d :: ds)
        | [] => .error "Unexpected end of JSON input"
      else if c == '[' then
        match jsonSkipWs cs with
        | d :: ds =>
          if d == ']' then .ok (.arr [], ds)
          else parseJsonArrayItems fuel (d :: ds)
        | [] => .error "Unexpected end of JSON input"
      else if c == 'n' then
        match cs with
        | 'u' :: 'l' :: 'l' :: r => .ok (.null, r)
        | _ => .error "Unexpected token in JSON"
      else if c == 't' then
        match cs with
        | 'r' :: 'u' :: 'e' :: r => .ok (.tt, r)
        | _ => .error "Unexpected token in JSON"
      else if c == 'f' then
        match cs with
        | 'a' :: 'l' :: 's' :: 'e' :: r => .ok (.ff, r)
        | _ => .error "Unexpected token in JSON"
      else if c == '-' || isJsonDigit c then
        match jsonNumberLexeme (c :: cs) with
        | .ok (lex, r) => .ok (.num ⟨lex⟩, r)
        | .error m => .error m
      else .error "Unexpected token in JSON"

/-- Items of a JSON array after the opening bracket (non-empty case). -/
def parseJsonArrayItems : Nat → List Char → Except String (Json × List Char)
  | 0, _ => .error "Unexpected end of JSON input"
  | fuel + 1, input =>
    match parseJsonValue fuel input with
    | .error m => .error m
    | .ok (v, r) =>
      match jsonSkipWs r with
      | ',' :: r2 =>
        match parseJsonArrayItems fuel r2 with
        | .ok (.arr vs, r3) => .ok (.arr (v :: vs), r3)
        | .ok _ => .error "Unexpected token in JSON"
        | .error m => .error m
      | ']' :: r2 => .ok (.arr [v], r2)
      | _ => .error "Unexpected token in JSON"

/-- Members of a JSON object after the opening brace (non-empty case). -/
def parseJsonObjectItems : Nat → List Char → Except String (Json × List Char)
  | 0, _ => .error "Unexpected end of JSON input"
  | fuel + 1, input =>
    match jsonSkipWs input with
    | c :: cs =>
      if c == quoteChar then
        match jsonStringChars (fuel + 1) cs with
        | .error m => .error m
        | .ok (key, r) =>
          match jsonSkipWs r with
          | ':' :: r2 =>
            match parseJsonValue fuel r2 with
            | .error m => .error m
            | .ok (v, r3) =>
              match jsonSkipWs r3 with
              | ',' :: r4 =>
                match parseJsonObjectItems fuel r4 with
                | .ok (.obj fs, r5) => .ok (.obj ((⟨key⟩, v) :: fs), r5)
                | .ok _ => .error "Unexpected token in JSON"
                | .error m => .error m
              | d :: r4 =>
                if d == closeBraceChar then .ok (.obj [(⟨key⟩, v)], r4)
                else .error "Unexpected token in JSON"
              | [] => .error "Unexpected end of JSON input"
          | _ => .error "Unexpected token in JSON"
      else .error "Unexpected token in JSON"
    | [] => .error "Unexpected end of JSON input"

end

/-- Modelled from the spec: js `JSON.parse` on a whole string (§7
`MalformedJson`): parse one value, then require only whitespace to remain. -/
def jsonParse (s : String) : Except String Json :=
  match parseJsonValue (s.data.length * 2 + 2) s.data with
  | .error m => .error m
  | .ok (v, rest) =>
    match jsonSkipWs rest with
    | [] => .ok v
    | _ => .error "Unexpected non-whitespace character after JSON"

/-- The `BodyInitType` enum of Body.ts (lines 9-18). -/
inductive BodyInitType where
  | ReadableStream
  | Blob
  | FormData
  | ArrayBuffer
  | String
  | Readable
  | Buffer
  | Uint8Array
deriving DecidableEq

/-- An entry value in a form-data collection: a plain field value or a file
(Body.ts `formData` produces `PonyfillFile(chunks, filename, type)`). -/
inductive FormValue where
  | str (s : String)
  | file (filename mimeType : String) (content : Bytes)
deriving DecidableEq

/-- The JS values accepted as `BodyPonyfillInit | null`, one constructor per
runtime shape distinguished by the `processBodyInit` probe chain. Stream-like
variants carry the chunk sequence their stream yields when drained, and
`readableStream` carries the identity tag of the already-constructed stream
instance. `unsupportedOther` stands for any value matching none of the
probes. -/
inductive BodyInit where
  | none_
  | str (s : String)
  | buffer (bs : Bytes)
  | readableStream (sid : Nat) (chunks : List Bytes)
  | blob (type_ : String) (content : Bytes)
  | uint8Array (bs : Bytes)
  | bufferView (bs : Bytes)
  | arrayBuffer (bs : Bytes)
  | readable (chunks : List Bytes)
  | blobLike (type_ : String) (size : Nat) (chunks : List Bytes)
  | urlSearchParams (ps : List (String × String))
  | formDataInit (entries : List (String × FormValue))
  | iterableChunks (chunks : List Bytes)
  | unsupportedOther
deriving DecidableEq

/-- The record returned by `processBodyInit` (Body.ts lines 282-287), minus
the factory closure, which is modelled separately by `bodyFactoryResult`. -/
structure ClassifiedBody where
  bodyType : Option BodyInitType
  contentType : Option String
  contentLength : Option Nat
deriving DecidableEq

/-- Boundary token for form-data bodies. The source draws a random token from
`Math.random().toString(36)` (Body.ts line 414); randomness is outside the
embedding, so a fixed representative token stands in for it. -/
def modelBoundary : String := "modelboundarytoken"

/-- Translation of `processBodyInit` (Body.ts lines 282-437): the probe chain
over the initializer, in source order, producing the classified source or the
synchronous `Unknown body type` error of line 436. -/
def processBodyInit : BodyInit → Except String ClassifiedBody
  | .none_ => .ok ⟨none, none, none⟩
  | .str s => .ok ⟨some .String, some "text/plain;charset=UTF-8", some (utf8Encode s).length⟩
  | .buffer bs => .ok ⟨some .Buffer, none, some bs.length⟩
  | .readableStream _ _ => .ok ⟨some .ReadableStream, none, none⟩
  | .blob ty content => .ok ⟨some .Blob, some ty, some content.length⟩
  | .uint8Array bs => .ok ⟨some .Uint8Array, none, some bs.length⟩
  | .bufferView bs => .ok ⟨none, none, some bs.length⟩
  | .arrayBuffer bs => .ok ⟨some .ArrayBuffer, none, some bs.length⟩
  | .readable _ => .ok ⟨some .Readable, none, none⟩
  | .blobLike ty size _ => .ok ⟨none, some ty, some size⟩
  | .urlSearchParams _ =>
    .ok ⟨some .String, some "application/x-www-form-urlencoded;charset=UTF-8", none⟩
  | .formDataInit _ =>
    .ok ⟨none, some ("multipart/form-data; boundary=" ++ modelBoundary), none⟩
  | .iterableChunks _ => .ok ⟨none, none, none⟩
  | .unsupportedOther => .error "Unknown body type"

/-- The multipart form decode limits record (Body.ts lines 26-41); `none`
means the option was not supplied (busboy then applies its default). -/
structure FormDataLims where
  fieldNameSize : Option Nat := none
  fieldSize : Option Nat := none
  fields : Option Nat := none
  fileSize : Option Nat := none
  files : Option Nat := none
  parts : Option Nat := none
  headerSize : Option Nat := none
deriving DecidableEq

/-- The mutable state of a `PonyfillBody` instance: the construction-time
fields plus the memoization cell `_generatedBody`, instrumented with the
number of `_bodyFactory` invocations and a counter from which fresh stream
instance tags are drawn. -/
structure BodyState where
  init : BodyInit
  bodyType : Option BodyInitType
  contentType : Option String
  contentLength : Option Nat
  bodyUsed : Bool
  generatedBody : Option Nat
  factoryCalls : Nat
  nextStreamId : Nat
  optLimits : Option FormDataLims
deriving DecidableEq

/-- Translation of the `PonyfillBody` constructor (Body.ts lines 52-61):
classify the initializer, store the derived fields, initialize `bodyUsed`
to `false` (line 48) and the memoization cell to null (line 66). -/
def mkBody (init : BodyInit) (opts : Option FormDataLims) : Except String BodyState :=
  (processBodyInit init).map fun c =>
    { init := init
      bodyType := c.bodyType
      contentType := c.contentType
      contentLength := c.contentLength
      bodyUsed := false
      generatedBody := none
      factoryCalls := 0
      nextStreamId := 0
      optLimits := opts }

/-- The stream the stored `_bodyFactory` yields when invoked: `null` for an
absent body (line 290), the already-built instance for a
`PonyfillReadableStream` initializer (line 324), and a freshly constructed
`PonyfillReadableStream` (a new instance tag) for every other variant. -/
def bodyFactoryResult (init : BodyInit) (fresh : Nat) : Option Nat :=
  match init with
  | .none_ => none
  | .readableStream sid _ => some sid
  | .unsupportedOther => none
  | _ => some fresh

/-- Translation of `PonyfillBody.generateBody` (Body.ts lines 68-75): if the
memoization cell holds a (truthy) stream, return it; otherwise invoke the
factory, store its result, and return it. -/
def generateBody (st : BodyState) : Option Nat × BodyState :=
  match st.generatedBody with
  | some s => (some s, st)
  | none =>
    let body := bodyFactoryResult st.init st.nextStreamId
    (body,
      { st with
        generatedBody := body
        factoryCalls := st.factoryCalls + 1
        nextStreamId := st.nextStreamId + 1 })

/-- Translation of the `body` getter (Body.ts lines 77-102). A non-null
generated stream is wrapped in a merging Proxy that preserves the underlying
stream's members and identity; the accessor is modelled as yielding the
underlying stream reference (`none` is JS `null`). -/
def bodyAccessor (st : BodyState) : Option Nat × BodyState :=
  generateBody st

/-- A JS error thrown/rejected by a materialization operation. -/
inductive JsErr where
  | typeError (msg : String)
  | syntaxError (msg : String)
deriving DecidableEq

/-- The JS value held in `this.bodyInit` as seen by code that returns it
directly (the `as string` casts are runtime no-ops, so a non-string
initializer flows through unchanged). -/
inductive JSValue where
  | str (s : String)
  | urlSearchParams (ps : List (String × String))
  | otherObj
deriving DecidableEq

/-- The raw `this.bodyInit` reference as a `JSValue`. -/
def jsOfInit : BodyInit → JSValue
  | .str s => .str s
  | .urlSearchParams ps => .urlSearchParams ps
  | _ => .otherObj

/-- Coercion of a JS value to a string, as js `String(x)` / implicit
ToPrimitive would perform it (`URLSearchParams` stringifies to its
serialization). -/
def jsToStringCoerce : JSValue → String
  | .str s => s
  | .urlSearchParams ps => serializeUrlEncoded ps
  | .otherObj => "[object Object]"

/-- The byte content of an in-memory initializer (the bytes of a Buffer,
typed array, ArrayBuffer or blob; UTF-8 bytes of a string). -/
def initContentBytes : BodyInit → Bytes
  | .str s => utf8Encode s
  | .buffer bs => bs
  | .uint8Array bs => bs
  | .bufferView bs => bs
  | .arrayBuffer bs => bs
  | .blob _ c => c
  | _ => []

/-- The declared type of a blob initializer. -/
def initBlobType : BodyInit → String
  | .blob ty _ => ty
  | _ => ""

/-- Modelled from the spec: `getStreamFromFormData` (FormData.ts is not under
src/); §4.1 rule 8 says the factory encodes the form-data set into multipart
wire format with the generated boundary. One chunk per entry plus the closing
boundary. -/
def multipartEncodeEntry (b : String) (e : String × FormValue) : Bytes :=
  match e.2 with
  | .str v =>
    utf8Encode ("--" ++ b ++ "\r\n" ++
      "Content-Disposition: form-data; name=\"" ++ e.1 ++ "\"\r\n\r\n" ++ v ++ "\r\n")
  | .file fn mt content =>
    utf8Encode ("--" ++ b ++ "\r\n" ++
      "Content-Disposition: form-data; name=\"" ++ e.1 ++ "\"; filename=\"" ++ fn ++ "\"\r\n" ++
      "Content-Type: " ++ mt ++ "\r\n\r\n") ++ content ++ utf8Encode "\r\n"

/-- Modelled from the spec: the chunk stream of a form-data body. -/
def multipartEncode (b : String) (entries : List (String × FormValue)) : List Bytes :=
  entries.map (multipartEncodeEntry b) ++ [utf8Encode ("--" ++ b ++ "--")]

/-- The chunk sequence the generated stream yields when drained once, per
initializer variant (what each `bodyFactory` of Body.ts streams). -/
def initChunks : BodyInit → List Bytes
  | .none_ => []
  | .str s => [utf8Encode s]
  | .buffer bs => [bs]
  | .uint8Array bs => [bs]
  | .bufferView bs => [bs]
  | .arrayBuffer bs => [bs]
  | .readableStream _ chunks => chunks
  | .readable chunks => chunks
  | .blob _ c => [c]
  | .blobLike _ _ chunks => chunks
  | .urlSearchParams ps => [utf8Encode (serializeUrlEncoded ps)]
  | .formDataInit entries => multipartEncode modelBoundary entries
  | .iterableChunks chunks => chunks
  | .unsupportedOther => []

/-- Translation of `_collectChunksFromReadable` (Body.ts lines 125-143):
generate (or reuse) the stream; a null stream resolves with no chunks,
otherwise the stream is drained and its chunks collected in emission
order. -/
def collectChunks (st : BodyState) : List Bytes × BodyState :=
  let (b, st₁) := generateBody st
  match b with
  | some _ => (initChunks st.init, st₁)
  | none => ([], st₁)

/-- Node `Buffer.from(x)` on the raw JS value `x` (external library behavior):
strings are UTF-8 encoded, byte-carrying objects are copied, and anything
else — in particular a `URLSearchParams` instance — throws a `TypeError`. -/
def bufferFromJS : BodyInit → Except JsErr Bytes
  | .str s => .ok (utf8Encode s)
  | .buffer bs => .ok bs
  | .uint8Array bs => .ok bs
  | .bufferView bs => .ok bs
  | .arrayBuffer bs => .ok bs
  | _ => .error (.typeError "first argument must be a string, Buffer, ArrayBuffer, or Array-like Object")

/-- Translation of `PonyfillBody.buffer` (Body.ts lines 240-266): fast paths
keyed on `this.bodyType`, otherwise drain the stream and concatenate the
chunks. The `.String` fast path performs `Buffer.from(this.bodyInit as
string)` — on the raw initializer, whatever it is. -/
def bufferOp (st : BodyState) : Except JsErr Bytes × BodyState :=
  match st.bodyType with
  | some .Buffer => (.ok (initContentBytes st.init), st)
  | some .String => (bufferFromJS st.init, st)
  | some .Uint8Array => (.ok (initContentBytes st.init), st)
  | some .ArrayBuffer => (.ok (initContentBytes st.init), st)
  | some .Blob => (.ok (initContentBytes st.init), st)
  | _ =>
    let (chunks, st₁) := collectChunks st
    (.ok chunks.flatten, st₁)

/-- Translation of `PonyfillBody.text` (Body.ts lines 273-279): when
`bodyType` is `.String` the raw `this.bodyInit` is returned (the `as string`
cast does nothing at runtime); otherwise the bytes of `buffer()` decoded as
UTF-8. -/
def textOp (st : BodyState) : Except JsErr JSValue × BodyState :=
  match st.bodyType with
  | some .String => (.ok (jsOfInit st.init), st)
  | _ =>
    let (r, st₁) := bufferOp st
    (r.map fun bs => .str (utf8DecodeLossy bs), st₁)

/-- A blob handle: declared type plus byte content (the spec's §6 blob
abstraction, `PonyfillBlob` being outside src/). -/
structure BlobC where
  type_ : String
  content : Bytes
deriving DecidableEq

/-- Modelled from the spec: the byte content a `PonyfillBlob` constructor
derives from one blob part (§6 blob abstraction): byte-carrying parts keep
their bytes, any other part is stringified then UTF-8 encoded. -/
def blobPartBytes : BodyInit → Bytes
  | .str s => utf8Encode s
  | .buffer bs => bs
  | .uint8Array bs => bs
  | .bufferView bs => bs
  | .arrayBuffer bs => bs
  | .blob _ c => c
  | other => utf8Encode (jsToStringCoerce (jsOfInit other))

/-- Translation of `PonyfillBody.blob` (Body.ts lines 145-170): return the
blob initializer as-is; wrap in-memory initializers into a new blob typed
with `this.contentType || ''`; otherwise drain the stream into a blob. -/
def blobOp (st : BodyState) : Except JsErr BlobC × BodyState :=
  match st.bodyType with
  | some .Blob => (.ok ⟨initBlobType st.init, initContentBytes st.init⟩, st)
  | some .String => (.ok ⟨st.contentType.getD "", blobPartBytes st.init⟩, st)
  | some .Buffer => (.ok ⟨st.contentType.getD "", blobPartBytes st.init⟩, st)
  | some .Uint8Array => (.ok ⟨st.contentType.getD "", blobPartBytes st.init⟩, st)
  | some .ArrayBuffer => (.ok ⟨st.contentType.getD "", initContentBytes st.init⟩, st)
  | _ =>
    let (chunks, st₁) := collectChunks st
    (.ok ⟨st.contentType.getD "", chunks.flatten⟩, st₁)

/-- Translation of `PonyfillBody.arrayBuffer` (Body.ts lines 104-123): fast
paths for ArrayBuffer, typed-array/Buffer (via `uint8ArrayToArrayBuffer`,
modelled as the bytes), string (via `Buffer.from(this.bodyInit as string)`)
and blob initializers; otherwise delegate to `blob()` and take its bytes. -/
def arrayBufferOp (st : BodyState) : Except JsErr Bytes × BodyState :=
  match st.bodyType with
  | some .ArrayBuffer => (.ok (initContentBytes st.init), st)
  | some .Uint8Array => (.ok (initContentBytes st.init), st)
  | some .Buffer => (.ok (initContentBytes st.init), st)
  | some .String => (bufferFromJS st.init, st)
  | some .Blob => (.ok (initContentBytes st.init), st)
  | _ =>
    let (r, st₁) := blobOp st
    (r.map (·.content), st₁)

/-- Translation of `PonyfillBody.json` (Body.ts lines 268-271):
`JSON.parse(await this.text())`, with `JSON.parse` coercing a non-string
argument to a string first; a parse failure rejects with a SyntaxError. -/
def jsonOp (st : BodyState) : Except JsErr Json × BodyState :=
  let (t, st₁) := textOp st
  match t with
  | .error e => (.error e, st₁)
  | .ok jv =>
    match jsonParse (jsToStringCoerce jv) with
    | .ok v => (.ok v, st₁)
    | .error m => (.error (.syntaxError m), st₁)

/-- One part of a multipart payload as busboy classifies it: a plain field or
a file (has a filename); `content` is the file's full byte content on the
wire. -/
inductive RawPart where
  | field (name value : String)
  | file (name filename mimeType : String) (content : Bytes)
deriving DecidableEq

/-- The rejection reasons raised by the `formData` handlers (Body.ts lines
193-235); each carries the limit value interpolated into the source's error
message (`formDataLimits?.x`, hence an `Option`). -/
inductive DecodeError where
  | fieldNameLimit (limit : Option Nat)
  | fieldSizeLimit (limit : Option Nat)
  | fieldsLimit (limit : Option Nat)
  | fileSizeLimit (limit : Option Nat)
  | filesLimit (limit : Option Nat)
  | partsLimit (limit : Option Nat)
  | busboyError (msg : String)
deriving DecidableEq

/-- A form-data collection: ordered name-keyed entries. -/
abbrev FormDataC := List (String × FormValue)

deriving instance DecidableEq for Except

/-- Modelled from the spec: `PonyfillFormData.set` (FormData.ts is not under
src/; §3 and §25 pin the collection to standard form-data multi-map
behavior, where `set` replaces the first entry with the given name, removes
any further ones, and otherwise appends). -/
def fdSet (fd : FormDataC) (n : String) (v : FormValue) : FormDataC :=
  match fd with
  | [] => [(n, v)]
  | (k, w) :: rest =>
    if k = n then (n, v) :: rest.filter (fun p => decide (p.1 ≠ n))
    else (k, w) :: fdSet rest n v

/-- The state of a pending `formData()` promise while busboy events arrive:
the settlement cell (first settle wins, as for a JS promise), the collection
under construction, and busboy's part/field/file counters. -/
structure DecState where
  settled : Option (Except DecodeError FormDataC)
  fd : FormDataC
  fieldCount : Nat
  fileCount : Nat
  partCount : Nat
deriving DecidableEq

/-- Initial decode state. -/
def initDecState : DecState :=
  { settled := none, fd := [], fieldCount := 0, fileCount := 0, partCount := 0 }

/-- `reject(e)`: settle the promise with an error unless already settled. -/
def pReject (st : DecState) (e : DecodeError) : DecState :=
  match st.settled with
  | some _ => st
  | none => { st with settled := some (.error e) }

/-- `resolve(v)`: settle the promise with a value unless already settled. -/
def pResolve (st : DecState) (v : FormDataC) : DecState :=
  match st.settled with
  | some _ => st
  | none => { st with settled := some (.ok v) }

/-- Whether a count has reached an optional bound (`none` = unbounded). -/
def overLimit (bound : Option Nat) (count : Nat) : Bool :=
  match bound with
  | none => false
  | some m => m ≤ count

/-- Effective field-name byte limit (busboy default 100). -/
def effFieldNameSize (L : FormDataLims) : Nat := L.fieldNameSize.getD 100

/-- Effective field-value byte limit (busboy default 1 MiB). -/
def effFieldSize (L : FormDataLims) : Nat := L.fieldSize.getD 1048576

/-- Translation of the `field` handler (Body.ts lines 193-201): busboy
delivers the name/value truncated at the byte limits together with the
truncation flags; a truncated name or value rejects the promise, and the
handler then still stores the (truncated) entry with `formData.set`. -/
def onField (L : FormDataLims) (st : DecState) (name value : String) : DecState :=
  let nameTruncated := decide (effFieldNameSize L < utf8Len name)
  let valueTruncated := decide (effFieldSize L < utf8Len value)
  let dName := truncateUtf8 name (effFieldNameSize L)
  let dValue := truncateUtf8 value (effFieldSize L)
  let st₁ := if nameTruncated then pReject st (.fieldNameLimit L.fieldNameSize) else st
  let st₂ := if valueTruncated then pReject st₁ (.fieldSizeLimit L.fieldSize) else st₁
  { st₂ with fd := fdSet st₂.fd dName (.str dValue) }

/-- Translation of the `file` handler (Body.ts lines 205-223): the file
stream's chunks are collected (truncated at `fileSize` by busboy); if the
stream was truncated the promise is rejected, and the handler then still
stores the `PonyfillFile` built from the collected chunks with
`formData.set`. -/
def onFile (L : FormDataLims) (st : DecState) (name filename mimeType : String)
    (content : Bytes) : DecState :=
  let truncated :=
    match L.fileSize with
    | some m => decide (m < content.length)
    | none => false
  let delivered :=
    match L.fileSize with
    | some m => content.take m
    | none => content
  let st₁ := if truncated then pReject st (.fileSizeLimit L.fileSize) else st
  { st₁ with fd := fdSet st₁.fd name (.file filename mimeType delivered) }

/-- Modelled from the spec: busboy's event dispatch for one part under the
structural limits (§4.4): a part beyond the `parts` bound fires `partsLimit`,
a field beyond `fields` fires `fieldsLimit`, a file beyond `files` fires
`filesLimit` — each of which the Body.ts handlers turn into a rejection —
and otherwise the corresponding `field`/`file` handler runs. -/
def stepPart (L : FormDataLims) (st : DecState) (p : RawPart) : DecState :=
  if overLimit L.parts st.partCount then pReject st (.partsLimit L.parts)
  else
    let st₀ := { st with partCount := st.partCount + 1 }
    match p with
    | .field n v =>
      if overLimit L.fields st₀.fieldCount then pReject st₀ (.fieldsLimit L.fields)
      else onField L { st₀ with fieldCount := st₀.fieldCount + 1 } n v
    | .file n fn mt content =>
      if overLimit L.files st₀.fileCount then pReject st₀ (.filesLimit L.files)
      else onFile L { st₀ with fileCount := st₀.fileCount + 1 } n fn mt content

/-- The `close` handler (Body.ts lines 230-232): resolve with the collection
(a no-op when a rejection already settled the promise). -/
def closeResolve (st : DecState) : DecState :=
  pResolve st st.fd

/-- Run the busboy decode over a part sequence: all part events, then
`close`. -/
def decodeMultipart (L : FormDataLims) (parts : List RawPart) : DecState :=
  closeResolve (parts.foldl (stepPart L) initDecState)

/-- The observable outcome of the decode promise. -/
def decodeResult (L : FormDataLims) (parts : List RawPart) : Except DecodeError FormDataC :=
  match (decodeMultipart L parts).settled with
  | some r => r
  | none => .ok []

/-- Translation of the limits merge (Body.ts lines 181-184):
`{...this.options.formDataLimits, ...opts?.formDataLimits}` — per-call
values override constructor defaults field by field. -/
def mergeLimits (base opts : Option FormDataLims) : FormDataLims :=
  let b := base.getD {}
  let o := opts.getD {}
  { fieldNameSize := o.fieldNameSize <|> b.fieldNameSize
    fieldSize := o.fieldSize <|> b.fieldSize
    fields := o.fields <|> b.fields
    fileSize := o.fileSize <|> b.fileSize
    files := o.files <|> b.files
    parts := o.parts <|> b.parts
    headerSize := o.headerSize <|> b.headerSize }

/-- The entries of a form-data initializer. -/
def initFormEntries : BodyInit → FormDataC
  | .formDataInit entries => entries
  | _ => []

/-- Translation of `PonyfillBody.formData` (Body.ts lines 172-238): a
form-data initializer is returned as-is when `bodyType` says so (a branch
`processBodyInit` never reaches, since the classifier assigns no `bodyType`
to form-data initializers); a null generated stream resolves with an empty
collection; otherwise the stream is piped into busboy, whose parse of the
multipart payload is the given `parts` sequence. -/
def formDataOp (st : BodyState) (opts : Option FormDataLims) (parts : List RawPart) :
    Except DecodeError FormDataC × BodyState :=
  match st.bodyType with
  | some .FormData => (.ok (initFormEntries st.init), st)
  | _ =>
    let (b, st₁) := generateBody st
    match b with
    | none => (.ok [], st₁)
    | some _ => (decodeResult (mergeLimits st.optLimits opts) parts, st₁)

/-- Whether a field part exceeds the effective name or value byte limit. -/
def violatesFieldLimits (L : FormDataLims) : RawPart → Bool
  | .field n v =>
    decide (effFieldNameSize L < utf8Len n) || decide (effFieldSize L < utf8Len v)
  | .file _ _ _ _ => false

theorem pReject_of_settled (st : DecState) (e : DecodeError)
    (r : Except DecodeError FormDataC) (h : st.settled = some r) : pReject st e = st := by
  unfold pReject
  rw [h]

theorem pReject_isSome (st : DecState) (e : DecodeError) :
    ((pReject st e).settled).isSome = true := by
  cases hs : st.settled <;> simp [pReject, hs]

theorem pReject_settled_cases (st : DecState) (e : DecodeError)
    (x : Except DecodeError FormDataC) (h : (pReject st e).settled = some x) :
    x = .error e ∨ st.settled = some x := by
  unfold pReject at h
  cases hs : st.settled with
  | none =>
    rw [hs] at h
    simp only at h
    exact Or.inl (Option.some.inj h).symm
  | some r =>
    rw [hs] at h
    have h2 : st.settled = some x := h
    exact Or.inr (hs.symm.trans h2)

theorem pReject_settled_pres (st : DecState) (e : DecodeError)
    (r : Except DecodeError FormDataC) (h : st.settled = some r) :
    (pReject st e).settled = some r := by
  rw [pReject_of_settled _ _ _ h]
  exact h

/-- Unfolding of the settlement cell after the `field` handler. -/
theorem onField_settled_eq (L : FormDataLims) (st : DecState) (n v : String) :
    (onField L st n v).settled =
      (if decide (effFieldSize L < utf8Len v) = true
        then pReject
          (if decide (effFieldNameSize L < utf8Len n) = true
            then pReject st (.fieldNameLimit L.fieldNameSize) else st)
          (.fieldSizeLimit L.fieldSize)
        else
          (if decide (effFieldNameSize L < utf8Len n) = true
            then pReject st (.fieldNameLimit L.fieldNameSize) else st)).settled := rfl

/-- Unfolding of the settlement cell after the `file` handler. -/
theorem onFile_settled_eq (L : FormDataLims) (st : DecState) (n fn mt : String) (c : Bytes) :
    (onFile L st n fn mt c).settled =
      (if (match L.fileSize with
            | some m => decide (m < c.length)
            | none => false) = true
        then pReject st (.fileSizeLimit L.fileSize) else st).settled := rfl

theorem onField_settled (L : FormDataLims) (st : DecState) (n v : String)
    (r : Except DecodeError FormDataC) (h : st.settled = some r) :
    (onField L st n v).settled = some r := by
  have h1 : (if decide (effFieldNameSize L < utf8Len n) = true
      then pReject st (.fieldNameLimit L.fieldNameSize) else st) = st := by
    split
    · exact pReject_of_settled _ _ _ h
    · rfl
  rw [onField_settled_eq, h1]
  split
  · exact pReject_settled_pres _ _ _ h
  · exact h

theorem onFile_settled (L : FormDataLims) (st : DecState) (n fn mt : String) (c : Bytes)
    (r : Except DecodeError FormDataC) (h : st.settled = some r) :
    (onFile L st n fn mt c).settled = some r := by
  rw [onFile_settled_eq]
  split
  · exact pReject_settled_pres _ _ _ h
  · exact h

theorem stepPart_settled (L : FormDataLims) (p : RawPart) (st : DecState)
    (r : Except DecodeError FormDataC) (h : st.settled = some r) :
    (stepPart L st p).settled = some r := by
  cases p with
  | field n v =>
    unfold stepPart
    split
    · exact pReject_settled_pres _ _ _ h
    · dsimp only
      split
      · exact pReject_settled_pres _ _ _ h
      · exact onField_settled _ _ _ _ _ h
  | file n fn mt c =>
    unfold stepPart
    split
    · exact pReject_settled_pres _ _ _ h
    · dsimp only
      split
      · exact pReject_settled_pres _ _ _ h
      · exact onFile_settled _ _ _ _ _ _ _ h

theorem foldParts_settled (L : FormDataLims) (parts : List RawPart) (st : DecState)
    (r : Except DecodeError FormDataC) (h : st.settled = some r) :
    (parts.foldl (stepPart L) st).settled = some r := by
  induction parts generalizing st with
  | nil => simpa using h
  | cons p ps ih =>
    simp only [List.foldl_cons]
    exact ih _ (stepPart_settled _ _ _ _ h)

/-- During the busboy fold the promise is never settled with a success:
`resolve` only runs in the `close` handler. -/
def settledNotOk (st : DecState) : Prop :=
  ∀ fd : FormDataC, st.settled ≠ some (.ok fd)

theorem settledNotOk_ite (c : Prop) [Decidable c] (a b : DecState)
    (ha : settledNotOk a) (hb : settledNotOk b) : settledNotOk (if c then a else b) := by
  split
  · exact ha
  · exact hb

theorem pReject_notOk (st : DecState) (e : DecodeError) (h : settledNotOk st) :
    settledNotOk (pReject st e) := by
  intro fd hc
  rcases pReject_settled_cases _ _ _ hc with he | hst
  · exact absurd he (by simp)
  · exact h fd hst

theorem onField_notOk (L : FormDataLims) (st : DecState) (n v : String)
    (h : settledNotOk st) : settledNotOk (onField L st n v) := by
  have hin : settledNotOk (if decide (effFieldNameSize L < utf8Len n) = true
      then pReject st (.fieldNameLimit L.fieldNameSize) else st) :=
    settledNotOk_ite _ _ _ (pReject_notOk _ _ h) h
  intro fd hc
  rw [onField_settled_eq] at hc
  exact settledNotOk_ite _ _ _ (pReject_notOk _ _ hin) hin fd hc

theorem onFile_notOk (L : FormDataLims) (st : DecState) (n fn mt : String) (c : Bytes)
    (h : settledNotOk st) : settledNotOk (onFile L st n fn mt c) := by
  intro fd hc
  rw [onFile_settled_eq] at hc
  exact settledNotOk_ite _ _ _ (pReject_notOk _ _ h) h fd hc

theorem stepPart_notOk (L : FormDataLims) (p : RawPart) (st : DecState)
    (h : settledNotOk st) : settledNotOk (stepPart L st p) := by
  cases p with
  | field n v =>
    unfold stepPart
    exact settledNotOk_ite _ _ _ (pReject_notOk _ _ h)
      (settledNotOk_ite _ _ _ (pReject_notOk _ _ h) (onField_notOk _ _ _ _ h))
  | file n fn mt c =>
    unfold stepPart
    exact settledNotOk_ite _ _ _ (pReject_notOk _ _ h)
      (settledNotOk_ite _ _ _ (pReject_notOk _ _ h) (onFile_notOk _ _ _ _ _ _ h))

theorem foldParts_notOk (L : FormDataLims) (parts : List RawPart) (st : DecState)
    (h : settledNotOk st) : settledNotOk (parts.foldl (stepPart L) st) := by
  induction parts generalizing st with
  | nil => exact h
  | cons p ps ih =>
    simp only [List.foldl_cons]
    exact ih _ (stepPart_notOk _ _ _ h)

theorem onField_violating_isSome (L : FormDataLims) (st : DecState) (n v : String)
    (hviol : violatesFieldLimits L (.field n v) = true) :
    ((onField L st n v).settled).isSome = true := by
  simp only [violatesFieldLimits, Bool.or_eq_true] at hviol
  rw [onField_settled_eq]
  rcases hviol with hA | hB
  · simp only [hA, eq_self_iff_true, if_true]
    split
    · exact pReject_isSome _ _
    · exact pReject_isSome _ _
  · simp only [hB, eq_self_iff_true, if_true]
    exact pReject_isSome _ _

theorem stepPart_violating_isSome (L : FormDataLims) (st : DecState) (n v : String)
    (hviol : violatesFieldLimits L (.field n v) = true) :
    ((stepPart L st (.field n v)).settled).isSome = true := by
  unfold stepPart
  split
  · exact pReject_isSome _ _
  · dsimp only
    split
    · exact pReject_isSome _ _
    · exact onField_violating_isSome _ _ _ _ hviol

theorem pResolve_of_settled (st : DecState) (v : FormDataC)
    (r : Except DecodeError FormDataC) (h : st.settled = some r) : pResolve st v = st := by
  unfold pResolve
  rw [h]

/-- The `PonyfillBody` state produced by constructing a body from a string. -/
def bodyOfStr (s : String) : BodyState :=
  { init := .str s
    bodyType := some .String
    contentType := some "text/plain;charset=UTF-8"
    contentLength := some (utf8Encode s).length
    bodyUsed := false
    generatedBody := none
    factoryCalls := 0
    nextStreamId := 0
    optLimits := none }

/-- The `PonyfillBody` state produced by constructing a body from `null`. -/
def nullBodyState : BodyState :=
  { init := .none_
    bodyType := none
    contentType := none
    contentLength := none
    bodyUsed := false
    generatedBody := none
    factoryCalls := 0
    nextStreamId := 0
    optLimits := none }

/-- The `PonyfillBody` state produced by constructing a body from the
one-byte Buffer `[0xFF]`. -/
def buf255Body : BodyState :=
  { init := .buffer [255]
    bodyType := some .Buffer
    contentType := none
    contentLength := some 1
    bodyUsed := false
    generatedBody := none
    factoryCalls := 0
    nextStreamId := 0
    optLimits := none }

/-- The parameter set a=1, b=2, in order. -/
def abParams : List (String × String) := [("a", "1"), ("b", "2")]

/-- The `PonyfillBody` state produced by constructing a body from the
URL-encoded parameter set a=1, b=2. -/
def abBody : BodyState :=
  { init := .urlSearchParams abParams
    bodyType := some .String
    contentType := some "application/x-www-form-urlencoded;charset=UTF-8"
    contentLength := none
    bodyUsed := false
    generatedBody := none
    factoryCalls := 0
    nextStreamId := 0
    optLimits := none }

/-- A body whose text is the invalid JSON text of §8. -/
def badJsonBody : BodyState := bodyOfStr "\x7bnot json"

/-- Limits with a 2-byte field-name bound (the §8 test vector). -/
def nameLimit2 : FormDataLims := { fieldNameSize := some 2 }

/-- A multipart payload with an over-long field name followed by a second,
well-formed field. -/
def nameLimitParts : List RawPart := [.field "name" "v", .field "x" "y"]

/-- Whether an initializer is one of the in-memory source kinds of §8
(string, Buffer, typed array, ArrayBuffer). -/
def isInMemoryInit : BodyInit → Bool
  | .str _ => true
  | .buffer _ => true
  | .uint8Array _ => true
  | .arrayBuffer _ => true
  | _ => false

/-- C1 (counterexample): the claim says the stored stream factory is invoked
at most once per Body. For the Body constructed from a null initializer the
factory returns null, the truthiness check of `generateBody` (Body.ts line
69) therefore never sees a memoized value, and a second `generateBody` call
invokes the stored factory a second time: `factoryCalls` reaches 2. -/
theorem generateBody_null_factory_reinvoked :
    mkBody .none_ none = .ok nullBodyState ∧
    (generateBody nullBodyState).1 = none ∧
    ((generateBody nullBodyState).2).factoryCalls = 1 ∧
    ((generateBody (generateBody nullBodyState).2).2).factoryCalls = 2 :=
  ⟨rfl, rfl, rfl, rfl⟩

/-- C1 (amended): whenever a `generateBody` call produces a non-null stream,
memoization holds — the immediately following call returns the very same
stream instance and leaves the state (in particular `factoryCalls`)
untouched, so the factory is not invoked again. -/
theorem generateBody_memoizes_nonnull (st st' : BodyState) (s : Nat)
    (h : generateBody st = (some s, st')) :
    generateBody st' = (some s, st') := by
  unfold generateBody at h ⊢
  cases hg : st.generatedBody with
  | some t =>
    rw [hg] at h
    injection h with h1 h2
    subst h2
    rw [hg, h1]
  | none =>
    rw [hg] at h
    injection h with h1 h2
    subst h2
    simp only [h1]

/-- C1 (witness): the string-sourced body produces stream instance 0 on the
first call, and the second call returns the same instance with the state
unchanged. -/
theorem generateBody_memoizes_nonnull_witness :
    generateBody (generateBody (bodyOfStr "hi")).2 = (some 0, (generateBody (bodyOfStr "hi")).2) :=
  generateBody_memoizes_nonnull (bodyOfStr "hi") (generateBody (bodyOfStr "hi")).2 0 rfl

/-- C2 (code bug): `bodyUsed` is declared `false` (Body.ts line 48) and never
assigned anywhere in the class: for any string-sourced body it is `false`
after construction, `text()` succeeds without setting it, and a second
`text()` call succeeds again with the same value instead of failing. -/
theorem bodyUsed_never_set (s : String) :
    mkBody (.str s) none = .ok (bodyOfStr s) ∧
    (bodyOfStr s).bodyUsed = false ∧
    textOp (bodyOfStr s) = (.ok (.str s), bodyOfStr s) ∧
    textOp (textOp (bodyOfStr s)).2 = (.ok (.str s), bodyOfStr s) :=
  ⟨rfl, rfl, rfl, rfl⟩

/-- C3 (counterexample): for the in-memory Body built from the Buffer
`[0xFF]`, `buffer()` yields the byte `0xFF` while `text()` decodes it
lossily to U+FFFD, whose UTF-8 encoding is `EF BF BD` — so `text()` does
not agree byte-for-byte with the other materializations on this in-memory
source. -/
theorem inMemory_text_byte_disagreement :
    mkBody (.buffer [255]) none = .ok buf255Body ∧
    bufferOp buf255Body = (.ok [255], buf255Body) ∧
    (textOp buf255Body).1 = .ok (.str (utf8DecodeLossy [255])) ∧
    utf8Encode (utf8DecodeLossy [255]) = [239, 191, 189] ∧
    [239, 191, 189] ≠ [255] :=
  ⟨rfl, rfl, rfl, by decide, by decide⟩

/-- C3 (amended): for every in-memory source kind (string, Buffer, typed
array, ArrayBuffer), `arrayBuffer()`, `buffer()` and `blob()`-then-bytes
agree byte-for-byte, none of them touches the body state (so the agreement
is independent of call order), and `text()` is the lossy UTF-8 decoding of
those common bytes — agreeing byte-for-byte whenever the source is a
string. -/
theorem inMemory_materializations_agree (init : BodyInit) (st : BodyState)
    (hmem : isInMemoryInit init = true) (hmk : mkBody init none = .ok st) :
    arrayBufferOp st = (.ok (initContentBytes init), st) ∧
    bufferOp st = (.ok (initContentBytes init), st) ∧
    (∃ b : BlobC, blobOp st = (.ok b, st) ∧ b.content = initContentBytes init) ∧
    (∀ s, init = .str s →
      textOp st = (.ok (.str s), st) ∧ utf8Encode s = initContentBytes init) ∧
    (∀ bs, init = .buffer bs ∨ init = .uint8Array bs ∨ init = .arrayBuffer bs →
      initContentBytes init = bs ∧ textOp st = (.ok (.str (utf8DecodeLossy bs)), st)) := by
  cases init with
  | str s =>
    have h' : (Except.ok (bodyOfStr s) : Except String BodyState) = .ok st := hmk
    injection h' with h2
    subst h2
    refine ⟨rfl, rfl, ⟨⟨"text/plain;charset=UTF-8", utf8Encode s⟩, rfl, rfl⟩, ?_, ?_⟩
    · intro s' hs
      injection hs with hs'
      subst hs'
      exact ⟨rfl, rfl⟩
    · intro bs hbs
      rcases hbs with h | h | h <;> exact absurd h (by simp)
  | buffer bs =>
    have h' : (Except.ok
        { init := .buffer bs, bodyType := some .Buffer, contentType := none,
          contentLength := some bs.length, bodyUsed := false, generatedBody := none,
          factoryCalls := 0, nextStreamId := 0, optLimits := none } :
        Except String BodyState) = .ok st := hmk
    injection h' with h2
    subst h2
    refine ⟨rfl, rfl, ⟨⟨"", bs⟩, rfl, rfl⟩, ?_, ?_⟩
    · intro s hs
      exact absurd hs (by simp)
    · intro bs' hbs
      rcases hbs with h | h | h
      · injection h with h1
        subst h1
        exact ⟨rfl, rfl⟩
      · exact absurd h (by simp)
      · exact absurd h (by simp)
  | uint8Array bs =>
    have h' : (Except.ok
        { init := .uint8Array bs, bodyType := some .Uint8Array, contentType := none,
          contentLength := some bs.length, bodyUsed := false, generatedBody := none,
          factoryCalls := 0, nextStreamId := 0, optLimits := none } :
        Except String BodyState) = .ok st := hmk
    injection h' with h2
    subst h2
    refine ⟨rfl, rfl, ⟨⟨"", bs⟩, rfl, rfl⟩, ?_, ?_⟩
    · intro s hs
      exact absurd hs (by simp)
    · intro bs' hbs
      rcases hbs with h | h | h
      · exact absurd h (by simp)
      · injection h with h1
        subst h1
        exact ⟨rfl, rfl⟩
      · exact absurd h (by simp)
  | arrayBuffer bs =>
    have h' : (Except.ok
        { init := .arrayBuffer bs, bodyType := some .ArrayBuffer, contentType := none,
          contentLength := some bs.length, bodyUsed := false, generatedBody := none,
          factoryCalls := 0, nextStreamId := 0, optLimits := none } :
        Except String BodyState) = .ok st := hmk
    injection h' with h2
    subst h2
    refine ⟨rfl, rfl, ⟨⟨"", bs⟩, rfl, rfl⟩, ?_, ?_⟩
    · intro s hs
      exact absurd hs (by simp)
    · intro bs' hbs
      rcases hbs with h | h | h
      · exact absurd h (by simp)
      · exact absurd h (by simp)
      · injection h with h1
        subst h1
        exact ⟨rfl, rfl⟩
  | none_ => exact absurd hmem (by simp [isInMemoryInit])
  | readableStream sid chunks => exact absurd hmem (by simp [isInMemoryInit])
  | blob ty c => exact absurd hmem (by simp [isInMemoryInit])
  | bufferView bs => exact absurd hmem (by simp [isInMemoryInit])
  | readable chunks => exact absurd hmem (by simp [isInMemoryInit])
  | blobLike ty sz chunks => exact absurd hmem (by simp [isInMemoryInit])
  | urlSearchParams ps => exact absurd hmem (by simp [isInMemoryInit])
  | formDataInit entries => exact absurd hmem (by simp [isInMemoryInit])
  | iterableChunks chunks => exact absurd hmem (by simp [isInMemoryInit])
  | unsupportedOther => exact absurd hmem (by simp [isInMemoryInit])

/-- C3 (witness): the amended agreement instantiated at the string body
"hi". -/
theorem inMemory_materializations_agree_witness :
    arrayBufferOp (bodyOfStr "hi") = (.ok (initContentBytes (.str "hi")), bodyOfStr "hi") ∧
    bufferOp (bodyOfStr "hi") = (.ok (initContentBytes (.str "hi")), bodyOfStr "hi") ∧
    (∃ b : BlobC, blobOp (bodyOfStr "hi") = (.ok b, bodyOfStr "hi") ∧
      b.content = initContentBytes (.str "hi")) ∧
    (∀ s, BodyInit.str "hi" = .str s →
      textOp (bodyOfStr "hi") = (.ok (.str s), bodyOfStr "hi") ∧
      utf8Encode s = initContentBytes (.str "hi")) ∧
    (∀ bs, BodyInit.str "hi" = .buffer bs ∨ BodyInit.str "hi" = .uint8Array bs ∨
        BodyInit.str "hi" = .arrayBuffer bs →
      initContentBytes (.str "hi") = bs ∧
      textOp (bodyOfStr "hi") = (.ok (.str (utf8DecodeLossy bs)), bodyOfStr "hi")) :=
  inMemory_materializations_agree (.str "hi") (bodyOfStr "hi") rfl rfl

/-- C4 (counterexample): the claim says decoding does not continue past a
field-name limit violation. With `fieldNameSize := 2` and the payload
`name=v` then `x=y`, the promise is indeed rejected with the field-name
failure, but the handler falls through after `reject` (no return at Body.ts
line 195): the truncated entry `na` is still stored and the later field `x`
is still decoded and stored — decoding continued past the violation. -/
theorem formData_decode_continues_after_limit :
    (decodeMultipart nameLimit2 nameLimitParts).settled
      = some (.error (.fieldNameLimit (some 2))) ∧
    (decodeMultipart nameLimit2 nameLimitParts).fd
      = [("na", .str "v"), ("x", .str "y")] ∧
    ("x", FormValue.str "y") ∈ (decodeMultipart nameLimit2 nameLimitParts).fd := by
  refine ⟨by decide, by decide, by decide⟩

/-- C4 (amended): a multipart payload containing a field whose name or value
exceeds the effective byte limit makes the decode promise reject with a
limit failure: the busboy fold settles the promise with an error before the
`close` resolution can run, so `formData()` never resolves successfully and
no collection is returned to the caller (decoding does, however, continue
internally past the violation; see the counterexample). -/
theorem formData_field_limit_rejects (L : FormDataLims) (parts : List RawPart)
    (h : ∃ p ∈ parts, violatesFieldLimits L p = true) :
    ∃ e, decodeResult L parts = .error e := by
  obtain ⟨p, hmem, hviol⟩ := h
  obtain ⟨l₁, l₂, rfl⟩ := List.append_of_mem hmem
  cases p with
  | file n fn mt c => simp [violatesFieldLimits] at hviol
  | field n v =>
    have hsome : ((stepPart L (l₁.foldl (stepPart L) initDecState) (.field n v)).settled).isSome
        = true :=
      stepPart_violating_isSome _ _ _ _ hviol
    obtain ⟨r, hr⟩ := Option.isSome_iff_exists.mp hsome
    have hfold : ((l₁ ++ .field n v :: l₂).foldl (stepPart L) initDecState).settled = some r := by
      rw [List.foldl_append, List.foldl_cons]
      exact foldParts_settled _ _ _ _ hr
    have hnotok : settledNotOk ((l₁ ++ .field n v :: l₂).foldl (stepPart L) initDecState) := by
      apply foldParts_notOk
      intro fd hc
      simp [initDecState] at hc
    cases r with
    | ok fd => exact absurd hfold (hnotok fd)
    | error e =>
      refine ⟨e, ?_⟩
      have hclose : decodeMultipart L (l₁ ++ .field n v :: l₂)
          = (l₁ ++ .field n v :: l₂).foldl (stepPart L) initDecState := by
        unfold decodeMultipart closeResolve
        exact pResolve_of_settled _ _ _ hfold
      unfold decodeResult
      rw [hclose, hfold]

/-- C4 (witness): the §8 test vector — `fieldNameSize := 2` against the
4-byte field name `name` — rejects. -/
theorem formData_field_limit_rejects_witness :
    ∃ e, decodeResult nameLimit2 [.field "name" "v"] = .error e :=
  formData_field_limit_rejects nameLimit2 [.field "name" "v"]
    ⟨.field "name" "v", by simp, by decide⟩

/-- C5 (code bug): the classifier tags a URL-encoded parameter set with
`BodyInitType.String` (Body.ts line 404). Content type and unknown length
match the claim, and the canonical serialization of a=1, b=2 is indeed
`a=1&b=2` — but `text()` takes the `.String` fast path and returns the raw
`this.bodyInit` (the `as string` cast does nothing), so it resolves with the
URLSearchParams object itself and never with any string. -/
theorem urlencoded_text_returns_params_object :
    mkBody (.urlSearchParams abParams) none = .ok abBody ∧
    abBody.contentType = some "application/x-www-form-urlencoded;charset=UTF-8" ∧
    abBody.contentLength = none ∧
    serializeUrlEncoded abParams = "a=1&b=2" ∧
    textOp abBody = (.ok (.urlSearchParams abParams), abBody) ∧
    (∀ s : String, (textOp abBody).1 ≠ .ok (.str s)) := by
  refine ⟨rfl, rfl, rfl, by decide, rfl, ?_⟩
  intro s h
  have h' : (Except.ok (JSValue.urlSearchParams abParams) : Except JsErr JSValue)
      = .ok (.str s) := h
  injection h' with h2
  exact absurd h2 (by simp)

/-- C6 (code bug): the `field` handler commits entries with `formData.set`
(Body.ts line 200), whose standard form-data semantics replace an existing
entry of the same name. Decoding two fields both named `a` with values `1`
then `2` therefore yields a collection holding only the later value — the
earlier entry is replaced, not kept alongside, contrary to the claimed
append/multi-map behavior. -/
theorem multipart_duplicate_field_replaced :
    decodeResult {} [.field "a" "1", .field "a" "2"] = .ok [("a", .str "2")] ∧
    decodeResult {} [.field "a" "1", .field "a" "2"]
      ≠ .ok [("a", .str "1"), ("a", .str "2")] := by
  refine ⟨by decide, by decide⟩

/-- C7: `json()` routes through `text()` and then `JSON.parse`: it leaves
the state exactly as `text()` does, resolves with the parsed value when the
materialized text parses, rejects with a SyntaxError-class failure when it
does not, and propagates a `text()` failure unchanged. -/
theorem json_routes_through_text (st : BodyState) :
    (jsonOp st).2 = (textOp st).2 ∧
    (∀ jv v, (textOp st).1 = .ok jv → jsonParse (jsToStringCoerce jv) = .ok v →
      (jsonOp st).1 = .ok v) ∧
    (∀ jv m, (textOp st).1 = .ok jv → jsonParse (jsToStringCoerce jv) = .error m →
      (jsonOp st).1 = .error (.syntaxError m)) ∧
    (∀ e, (textOp st).1 = .error e → (jsonOp st).1 = .error e) := by
  unfold jsonOp
  rcases hp : textOp st with ⟨t, st₁⟩
  cases t with
  | error e =>
    refine ⟨rfl, ?_, ?_, ?_⟩
    · intro jv v h1 h2
      simp [hp] at h1
    · intro jv m h1 h2
      simp [hp] at h1
    · intro e' h1
      simp only [hp] at h1 ⊢
      injection h1 with h2
      rw [h2]
  | ok jv =>
    cases hj : jsonParse (jsToStringCoerce jv) with
    | ok v =>
      refine ⟨by simp only [hj], ?_, ?_, ?_⟩
      · intro jv' v' h1 h2
        simp only [hp] at h1 ⊢
        injection h1 with h3
        subst h3
        rw [hj] at h2
        injection h2 with h4
        rw [hj, h4]
      · intro jv' m h1 h2
        simp only [hp] at h1
        injection h1 with h3
        subst h3
        rw [hj] at h2
        exact absurd h2 (by simp)
      · intro e h1
        simp [hp] at h1
    | error m =>
      refine ⟨by simp only [hj], ?_, ?_, ?_⟩
      · intro jv' v h1 h2
        simp only [hp] at h1
        injection h1 with h3
        subst h3
        rw [hj] at h2
        exact absurd h2 (by simp)
      · intro jv' m' h1 h2
        simp only [hp] at h1 ⊢
        injection h1 with h3
        subst h3
        rw [hj] at h2
        injection h2 with h4
        rw [hj, h4]
      · intro e h1
        simp [hp] at h1

/-- C7 (witness): the §8 vector — a body whose text is the invalid JSON
text — rejects with the parse failure rather than resolving. -/
theorem json_routes_through_text_witness :
    (jsonOp badJsonBody).1 = .error (.syntaxError "Unexpected token in JSON") :=
  (json_routes_through_text badJsonBody).2.2.1 (.str "\x7bnot json")
    "Unexpected token in JSON" rfl rfl

/-- C8: a Body constructed from a null initializer classifies to a null
content type, a null (unknown, not measured) content length and no body
type; the `body` accessor returns null; and no call can ever produce a
stream — the stored factory returns null for every fresh tag, and
`generateBody` on any state of such a body returns null and leaves the
memoization cell empty. -/
theorem null_body_classification :
    processBodyInit .none_ = .ok ⟨none, none, none⟩ ∧
    mkBody .none_ none = .ok nullBodyState ∧
    (bodyAccessor nullBodyState).1 = none ∧
    (∀ n, bodyFactoryResult .none_ n = none) ∧
    (∀ st : BodyState, st.init = .none_ → st.generatedBody = none →
      (generateBody st).1 = none ∧ (generateBody st).2.generatedBody = none) := by
  refine ⟨rfl, rfl, rfl, fun n => rfl, ?_⟩
  intro st hinit hgen
  unfold generateBody
  rw [hgen, hinit]
  exact ⟨rfl, rfl⟩

/-- C8 (witness): instantiated at the constructed null body. -/
theorem null_body_classification_witness :
    (generateBody nullBodyState).1 = none ∧
    (generateBody nullBodyState).2.generatedBody = none :=
  null_body_classification.2.2.2.2 nullBodyState rfl rfl

/-- C9: `processBodyInit` fails — synchronously, with the `Unknown body
type` error of Body.ts line 436 — exactly on an initializer matching none
of the supported probes, and succeeds on every supported variant. -/
theorem processBodyInit_unknown_only (init : BodyInit) (h : init ≠ .unsupportedOther) :
    processBodyInit .unsupportedOther = .error "Unknown body type" ∧
    ∃ c, processBodyInit init = .ok c := by
  refine ⟨rfl, ?_⟩
  cases init with
  | unsupportedOther => exact absurd rfl h
  | none_ => exact ⟨_, rfl⟩
  | str s => exact ⟨_, rfl⟩
  | buffer bs => exact ⟨_, rfl⟩
  | readableStream sid chunks => exact ⟨_, rfl⟩
  | blob ty c => exact ⟨_, rfl⟩
  | uint8Array bs => exact ⟨_, rfl⟩
  | bufferView bs => exact ⟨_, rfl⟩
  | arrayBuffer bs => exact ⟨_, rfl⟩
  | readable chunks => exact ⟨_, rfl⟩
  | blobLike ty sz chunks => exact ⟨_, rfl⟩
  | urlSearchParams ps => exact ⟨_, rfl⟩
  | formDataInit entries => exact ⟨_, rfl⟩
  | iterableChunks chunks => exact ⟨_, rfl⟩

/-- C9 (witness): instantiated at the empty-string initializer. -/
theorem processBodyInit_unknown_only_witness :
    processBodyInit .unsupportedOther = .error "Unknown body type" ∧
    ∃ c, processBodyInit (.str "") = .ok c :=
  processBodyInit_unknown_only (.str "") (by decide)

/-- C10: `formData()` on a Body constructed from a null initializer resolves
with an empty collection for every per-call limits argument and every
conceivable busboy part sequence — the null generated stream short-circuits
the method (Body.ts lines 178-180) before the busboy decoder could ever
run, and no missing content type makes it reject. -/
theorem null_body_formData_empty (opts₀ opts : Option FormDataLims)
    (parts : List RawPart) (st : BodyState) (h : mkBody .none_ opts₀ = .ok st) :
    (formDataOp st opts parts).1 = .ok [] := by
  have h' : (Except.ok
      { init := .none_, bodyType := none, contentType := none, contentLength := none,
        bodyUsed := false, generatedBody := none, factoryCalls := 0, nextStreamId := 0,
        optLimits := opts₀ } : Except String BodyState) = .ok st := h
  injection h' with h2
  subst h2
  rfl

/-- C10 (witness): instantiated with no constructor limits, no per-call
limits, and a non-empty part sequence (whose content is visibly ignored). -/
theorem null_body_formData_empty_witness :
    (formDataOp nullBodyState none [.field "a" "b"]).1 = .ok [] :=
  null_body_formData_empty none none [.field "a" "b"] nullBodyState rfl

end WhatwgBody
